import Mathlib

/-!
SHIELD simulation engine: shallow embedding and verification.

A shallow embedding of the simulation engine of `src/script.js` (SHIELD demo):
salvo generation, detection/classification, the two engagement doctrines
(barrage and shoot-look-shoot) against a depleting interceptor inventory,
per-trial common-mode degradation, and the Monte Carlo aggregation.

Modelling conventions:
* JavaScript numbers that hold probabilities become `ℚ`; the counters that the
  UI clamps to non-negative integers become `Nat`; the inventory counter is
  modelled as `Int` so that its non-negativity is a provable property rather
  than a typing artefact.
* `Math.random()` becomes an explicit entropy stream `RStream := Nat → ℚ`
  together with a running index: every primitive that draws randomness takes
  the stream and the next unused index and returns its result paired with the
  new index, consuming exactly as many draws as the JavaScript code does.
* JavaScript `NaN` results (mean/percentile of an empty array, out-of-range
  indexing) are modelled by `Option ℚ` with `none` as the NaN sentinel.
-/

namespace Shield

/-- Entropy stream: the value of the `n`-th call to `Math.random()`. -/
def RStream : Type := Nat → ℚ

/-- A stream is valid when every draw lies in `[0, 1)`, as `Math.random()`
guarantees. -/
def validStream (r : RStream) : Prop := ∀ n, 0 ≤ r n ∧ r n < 1

/-- Function `clamp01` from the source: clamp a number into `[0, 1]`. -/
def clamp01 (x : ℚ) : ℚ := max 0 (min 1 x)

/-- Function `bernoulli(p)` from the source: `randUniform() < p`, consuming one draw. -/
def bernoulli (p : ℚ) (r : RStream) (k : Nat) : Bool × Nat :=
  (decide (r k < p), k + 1)

/-- Model of `Math.floor` on a rational: `Int.fdiv` is floor division and the
denominator of a `ℚ` is positive, so this is the real floor. -/
def qfloor (q : ℚ) : Int := q.num.fdiv q.den

/-- Model of `Math.ceil` on a rational, via the floor reflection identity. -/
def qceil (q : ℚ) : Int := -qfloor (-q)

/-- True object kind of a trackable object (`tgt.kind` in the source). -/
inductive Kind where
  | warhead
  | decoy
deriving DecidableEq, Repr

/-- One trackable object (`{ kind, id }` in the source). -/
structure Target where
  kind : Kind
  id : String
deriving DecidableEq, Repr

/-- The simulation configuration record (`params` in the source), as validated
by `readParamsFromUI`: counts are non-negative integers, probabilities are
rationals (clamped into `[0,1]` by the caller, not re-checked by the engine). -/
structure Params where
  nMissiles : Nat
  mirvsPerMissile : Nat
  decoysPerWarhead : Nat
  pDetectTrack : ℚ
  pClassifyWarhead : ℚ
  pFalseAlarmDecoy : ℚ
  doctrineMode : String
  shotsPerTarget : Nat
  maxShotsPerTarget : Nat
  pReengage : ℚ
  pkWarhead : ℚ
  pkDecoy : ℚ
  nInventory : Nat
  nTrials : Nat
  pSystemUp : ℚ
  detectDegradeFactor : ℚ
  pkDegradeFactor : ℚ
deriving Repr

/-! ## Salvo generator (`generateTargets` and `shuffle`) -/

/-- Swap positions `i` and `j` of a list, the effect of
`[arr[i], arr[j]] = [arr[j], arr[i]]`.  The bounds check has no counterpart in
the JavaScript (out-of-range indices would corrupt the array with `undefined`
there), but the shuffle only ever calls this with `j = ⌊u·(i+1)⌋` for a draw
`u ∈ [0,1)`, which is always in range. -/
def listSwap (l : List Target) (i j : Nat) : List Target :=
  if h : i < l.length ∧ j < l.length then
    (l.set i (l.get ⟨j, h.2⟩)).set j (l.get ⟨i, h.1⟩)
  else l

/-- The loop body chain of the Fisher–Yates `shuffle`: the first argument is
the loop counter `i`, counting down to `1`; each iteration consumes one draw
and swaps position `i` with position `⌊u·(i+1)⌋`. -/
def shuffleGo (r : RStream) : Nat → Nat → List Target → List Target × Nat
  | 0, k, l => (l, k)
  | i + 1, k, l =>
    let j : Int := qfloor (r k * ((i + 2 : Nat) : ℚ))
    let l' := if 0 ≤ j then listSwap l (i + 1) j.toNat else l
    shuffleGo r i (k + 1) l'

/-- Function `shuffle(arr)` from the source: Fisher–Yates over the whole list. -/
def shuffle (l : List Target) (r : RStream) (k : Nat) : List Target × Nat :=
  shuffleGo r (l.length - 1) k l

/-- The warhead objects pushed by the first loop of `generateTargets`. -/
def warheadObjs (n : Nat) : List Target :=
  (List.range n).map (fun w => { kind := Kind.warhead, id := "W" ++ toString w })

/-- The decoy objects pushed by the second loop of `generateTargets`. -/
def decoyObjs (n : Nat) : List Target :=
  (List.range n).map (fun d => { kind := Kind.decoy, id := "D" ++ toString d })

/-- Return value of `generateTargets`. -/
structure GenResult where
  targets : List Target
  realWarheads : Nat
  decoys : Nat
deriving Repr

/-- Function `generateTargets(params)` from the source. -/
def generateTargets (p : Params) (r : RStream) (k : Nat) : GenResult × Nat :=
  let realWarheads := p.nMissiles * p.mirvsPerMissile
  let decoys := realWarheads * p.decoysPerWarhead
  let s := shuffle (warheadObjs realWarheads ++ decoyObjs decoys) r k
  ({ targets := s.1, realWarheads := realWarheads, decoys := decoys }, s.2)

/-! ## Classification (`classifyTarget`) -/

/-- Function `classifyTarget(tgt, params)` from the source: one Bernoulli draw whose
probability depends on the true kind. -/
def classifyTarget (tgt : Target) (p : Params) (r : RStream) (k : Nat) :
    Bool × Nat :=
  if tgt.kind = Kind.warhead then bernoulli p.pClassifyWarhead r k
  else bernoulli p.pFalseAlarmDecoy r k

/-! ## Engagement (`engageTarget`) -/

/-- Return value of `engageTarget`. -/
structure EngagementOutcome where
  killed : Bool
  shotsFired : Nat
  inventoryRemaining : Int
deriving DecidableEq, Repr

/-- The barrage resolve loop: up to `n` Bernoulli(`pk`) draws, stopping at the
first success; returns whether any draw succeeded and the next stream index. -/
def barrageResolve (pk : ℚ) (r : RStream) : Nat → Nat → Bool × Nat
  | 0, k => (false, k)
  | n + 1, k =>
    let b := bernoulli pk r k
    if b.1 then (true, b.2) else barrageResolve pk r n b.2

/-- The shoot-look-shoot loop: fire up to `n` shots; after each miss a
re-engagement feasibility draw decides whether the next shot happens (the
draw is taken even on the last allowed shot, as in the source).  Returns
`(killed, shotsFired, next stream index)`. -/
def slsResolve (pk pre : ℚ) (r : RStream) : Nat → Nat → Bool × Nat × Nat
  | 0, k => (false, 0, k)
  | n + 1, k =>
    let hit := bernoulli pk r k
    if hit.1 then (true, 1, hit.2)
    else
      let re := bernoulli pre r hit.2
      if re.1 then
        let rest := slsResolve pk pre r n re.2
        (rest.1, rest.2.1 + 1, rest.2.2)
      else (false, 1, re.2)

/-- Function `engageTarget(tgt, params, inventory)` from the source. -/
def engageTarget (tgt : Target) (p : Params) (inventory : Int) (r : RStream)
    (k : Nat) : EngagementOutcome × Nat :=
  let pk := if tgt.kind = Kind.warhead then p.pkWarhead else p.pkDecoy
  if inventory ≤ 0 then
    ({ killed := false, shotsFired := 0, inventoryRemaining := inventory }, k)
  else if p.doctrineMode = "barrage" then
    let alloc : Int := min (p.shotsPerTarget : Int) inventory
    if alloc ≤ 0 then
      ({ killed := false, shotsFired := 0, inventoryRemaining := inventory }, k)
    else
      let res := barrageResolve pk r alloc.toNat k
      ({ killed := res.1, shotsFired := alloc.toNat,
         inventoryRemaining := inventory - alloc }, res.2)
  else
    let cap : Int := min (p.maxShotsPerTarget : Int) inventory
    let res := slsResolve pk p.pReengage r cap.toNat k
    ({ killed := res.1, shotsFired := res.2.1,
       inventoryRemaining := inventory - (res.2.1 : Int) }, res.2.2)

/-- The shoot-look-shoot behaviour of `engageTarget` on its own (the code of
`engageTarget` with the `doctrineMode === "barrage"` branch removed), used to
state which doctrine an unrecognized mode string falls into. -/
def slsEngage (tgt : Target) (p : Params) (inventory : Int) (r : RStream)
    (k : Nat) : EngagementOutcome × Nat :=
  let pk := if tgt.kind = Kind.warhead then p.pkWarhead else p.pkDecoy
  if inventory ≤ 0 then
    ({ killed := false, shotsFired := 0, inventoryRemaining := inventory }, k)
  else
    let cap : Int := min (p.maxShotsPerTarget : Int) inventory
    let res := slsResolve pk p.pReengage r cap.toNat k
    ({ killed := res.1, shotsFired := res.2.1,
       inventoryRemaining := inventory - (res.2.1 : Int) }, res.2.2)

/-! ## Trial reliability (`applyTrialDegradation`) -/

/-- Return value of `applyTrialDegradation`. -/
structure TrialDegradation where
  pDetectTrack_trial : ℚ
  pkWarhead_trial : ℚ
  pkDecoy_trial : ℚ
  systemUp : Bool
deriving Repr

/-- Function `applyTrialDegradation(params)` from the source: one common-mode draw per
trial; on failure, detection and kill probabilities are degraded and
reclamped. -/
def applyTrialDegradation (p : Params) (r : RStream) (k : Nat) :
    TrialDegradation × Nat :=
  let up := bernoulli p.pSystemUp r k
  if up.1 then
    ({ pDetectTrack_trial := p.pDetectTrack, pkWarhead_trial := p.pkWarhead,
       pkDecoy_trial := p.pkDecoy, systemUp := true }, up.2)
  else
    ({ pDetectTrack_trial := clamp01 (p.pDetectTrack * p.detectDegradeFactor),
       pkWarhead_trial := clamp01 (p.pkWarhead * p.pkDegradeFactor),
       pkDecoy_trial := clamp01 (p.pkDecoy * p.pkDegradeFactor),
       systemUp := false }, up.2)

/-! ## Trial orchestrator (`runOneTrial`) -/

/-- The running counters of `runOneTrial`, plus the next unused stream
index `k`. -/
structure TrialState where
  inventory : Int
  penetratedRealWarheads : Nat
  interceptedRealWarheads : Nat
  detectedObjects : Nat
  detectedRealWarheads : Nat
  truePositives : Nat
  falseNegatives : Nat
  falsePositives : Nat
  shotsTotal : Nat
  shotsAtTrueWarheads : Nat
  shotsAtDecoys : Nat
  k : Nat
deriving Repr

/-- The initial counters of `runOneTrial`: inventory at the configured size,
every diagnostic at zero, next draw at index `k`. -/
def initState (p : Params) (k : Nat) : TrialState :=
  { inventory := (p.nInventory : Int), penetratedRealWarheads := 0,
    interceptedRealWarheads := 0, detectedObjects := 0,
    detectedRealWarheads := 0, truePositives := 0, falseNegatives := 0,
    falsePositives := 0, shotsTotal := 0, shotsAtTrueWarheads := 0,
    shotsAtDecoys := 0, k := k }

/-- The body of the `for (const tgt of targets)` loop of `runOneTrial`:
detection, then classification, then (for warhead-tracks only) engagement,
updating the trial counters.  `pDet`, `pkW`, `pkD` are the trial's operative
(possibly degraded) probabilities; classification uses the configured rates
from `p` unchanged, exactly as in the source. -/
def processTarget (pDet pkW pkD : ℚ) (p : Params) (r : RStream)
    (st : TrialState) (tgt : Target) : TrialState :=
  let det := bernoulli pDet r st.k
  if det.1 = false then
    { st with
      penetratedRealWarheads :=
        st.penetratedRealWarheads + (if tgt.kind = Kind.warhead then 1 else 0),
      k := det.2 }
  else
    let cls := classifyTarget tgt p r det.2
    let st1 :=
      { st with
        detectedObjects := st.detectedObjects + 1,
        detectedRealWarheads :=
          st.detectedRealWarheads + (if tgt.kind = Kind.warhead then 1 else 0),
        truePositives := st.truePositives +
          (if tgt.kind = Kind.warhead ∧ cls.1 = true then 1 else 0),
        falseNegatives := st.falseNegatives +
          (if tgt.kind = Kind.warhead ∧ cls.1 = false then 1 else 0),
        falsePositives := st.falsePositives +
          (if tgt.kind ≠ Kind.warhead ∧ cls.1 = true then 1 else 0),
        k := cls.2 }
    if cls.1 = false then
      { st1 with
        penetratedRealWarheads := st1.penetratedRealWarheads +
          (if tgt.kind = Kind.warhead then 1 else 0) }
    else
      let eng := engageTarget tgt { p with pkWarhead := pkW, pkDecoy := pkD }
        st1.inventory r st1.k
      { st1 with
        inventory := eng.1.inventoryRemaining,
        shotsTotal := st1.shotsTotal + eng.1.shotsFired,
        shotsAtTrueWarheads := st1.shotsAtTrueWarheads +
          (if tgt.kind = Kind.warhead then eng.1.shotsFired else 0),
        shotsAtDecoys := st1.shotsAtDecoys +
          (if tgt.kind = Kind.warhead then 0 else eng.1.shotsFired),
        interceptedRealWarheads := st1.interceptedRealWarheads +
          (if tgt.kind = Kind.warhead ∧ eng.1.killed = true then 1 else 0),
        penetratedRealWarheads := st1.penetratedRealWarheads +
          (if tgt.kind = Kind.warhead ∧ eng.1.killed = false then 1 else 0),
        k := eng.2 }

/-- Return value of `runOneTrial`. -/
structure TrialResult where
  realWarheads : Nat
  penetratedRealWarheads : Nat
  interceptedRealWarheads : Nat
  detectedObjects : Nat
  detectedRealWarheads : Nat
  truePositives : Nat
  falseNegatives : Nat
  falsePositives : Nat
  shotsTotal : Nat
  shotsAtTrueWarheads : Nat
  shotsAtDecoys : Nat
  inventoryRemaining : Int
  systemUp : Bool
deriving Repr

/-- Function `runOneTrial(params)` from the source, returning the trial result paired
with the next unused stream index. -/
def runOneTrial (p : Params) (r : RStream) (k : Nat) : TrialResult × Nat :=
  let g := generateTargets p r k
  let d := applyTrialDegradation p r g.2
  let st := g.1.targets.foldl
    (processTarget d.1.pDetectTrack_trial d.1.pkWarhead_trial
      d.1.pkDecoy_trial p r)
    (initState p d.2)
  ({ realWarheads := g.1.realWarheads,
     penetratedRealWarheads := st.penetratedRealWarheads,
     interceptedRealWarheads := st.interceptedRealWarheads,
     detectedObjects := st.detectedObjects,
     detectedRealWarheads := st.detectedRealWarheads,
     truePositives := st.truePositives, falseNegatives := st.falseNegatives,
     falsePositives := st.falsePositives, shotsTotal := st.shotsTotal,
     shotsAtTrueWarheads := st.shotsAtTrueWarheads,
     shotsAtDecoys := st.shotsAtDecoys,
     inventoryRemaining := st.inventory, systemUp := d.1.systemUp }, st.k)

/-! ## Statistics (`percentile` and `mean`)

`none : Option ℚ` models the JavaScript `NaN` sentinel (and the `undefined`
that out-of-range array indexing would propagate into `NaN` arithmetic). -/

/-- Insert a value into an ascending list, keeping it ascending. -/
def insertSorted (x : ℚ) : List ℚ → List ℚ
  | [] => [x]
  | y :: ys => if x ≤ y then x :: y :: ys else y :: insertSorted x ys

/-- Model of `[...arr].sort((a, b) => a - b)` from the source: a copy of the list
sorted ascending (insertion sort; the source's comparator sorts numbers
ascending, and stability is irrelevant on numbers). -/
def sortAsc (l : List ℚ) : List ℚ := l.foldr insertSorted []

/-- JavaScript array indexing `arr[i]` for a possibly negative index:
`undefined` (here `none`) when out of range. -/
def getAt (l : List ℚ) (i : Int) : Option ℚ :=
  if 0 ≤ i then l[i.toNat]? else none

/-- Function `percentile(arr, p)` from the source: linear interpolation at index
`p/100 · (n−1)` on the sorted copy; `none` (the NaN sentinel) on empty
input. -/
def percentile (arr : List ℚ) (p : ℚ) : Option ℚ :=
  if arr.length = 0 then none
  else
    let sorted := sortAsc arr
    let idx : ℚ := p / 100 * ((sorted.length : ℚ) - 1)
    let lo := qfloor idx
    let hi := qceil idx
    if lo = hi then getAt sorted lo
    else
      let w := idx - (lo : ℚ)
      match getAt sorted lo, getAt sorted hi with
      | some a, some b => some (a * (1 - w) + b * w)
      | _, _ => none

/-- Function `mean(arr)` from the source: `arr.reduce((a, b) => a + b, 0) / arr.length`,
`none` (the NaN sentinel) on empty input. -/
def mean (arr : List ℚ) : Option ℚ :=
  if arr.length = 0 then none
  else some (arr.foldl (· + ·) 0 / (arr.length : ℚ))

/-! ## Monte Carlo aggregator (`runMonteCarlo`) -/

/-- The trial loop of `runMonteCarlo`: `n` sequential trials, threading the
stream index. -/
def runTrials (p : Params) (r : RStream) : Nat → Nat → List TrialResult × Nat
  | 0, k => ([], k)
  | n + 1, k =>
    let t := runOneTrial p r k
    let rest := runTrials p r n t.2
    (t.1 :: rest.1, rest.2)

/-- The `summary` record of `runMonteCarlo`.  `realWarheads` is `none` when
`realWarheadsConst` was never assigned (zero trials, where the source keeps
`null`). -/
structure Summary where
  realWarheads : Option Nat
  meanPenReal : Option ℚ
  p10PenReal : Option ℚ
  medianPenReal : Option ℚ
  p90PenReal : Option ℚ
  meanIntReal : Option ℚ
  meanDetObjects : Option ℚ
  meanDetReal : Option ℚ
  meanTP : Option ℚ
  meanFN : Option ℚ
  meanFP : Option ℚ
  meanShotsTotal : Option ℚ
  meanShotsWarheads : Option ℚ
  meanShotsDecoys : Option ℚ
  meanInventoryRemaining : Option ℚ
  meanSystemUp : Option ℚ
  meanPenRateReal : ℚ
deriving Repr

/-- Return value of `runMonteCarlo`: the raw per-trial sequences the source
exposes alongside the summary. -/
structure MCResult where
  penReal : List Nat
  intReal : List Nat
  shotsTot : List Nat
  fp : List Nat
  summary : Summary
deriving Repr

/-- Function `runMonteCarlo(params)` from the source.  `realWarheadsConst` is the first
trial's (deterministic) real-warhead count, `none` when there is no trial; in
the penetration rate, `mean` of the penetrated counts is forced with `getD 0`,
which is only reached when the trial list is non-empty and the mean therefore
defined, matching the source's `mean(penReal) / realWarheadsConst`. -/
def runMonteCarlo (p : Params) (r : RStream) (k : Nat) : MCResult :=
  let trials := (runTrials p r p.nTrials k).1
  let penReal : List Nat := trials.map (·.penetratedRealWarheads)
  let intReal := trials.map (·.interceptedRealWarheads)
  let detObj := trials.map (·.detectedObjects)
  let detReal := trials.map (·.detectedRealWarheads)
  let tp := trials.map (·.truePositives)
  let fn := trials.map (·.falseNegatives)
  let fps := trials.map (·.falsePositives)
  let shotsTot := trials.map (·.shotsTotal)
  let shotsW := trials.map (·.shotsAtTrueWarheads)
  let shotsD := trials.map (·.shotsAtDecoys)
  let invLeft := trials.map (·.inventoryRemaining)
  let systemUpFlags := trials.map (fun t => if t.systemUp then (1 : ℚ) else 0)
  let realWarheadsConst := trials.head?.map (·.realWarheads)
  let penQ := penReal.map (fun n : Nat => (n : ℚ))
  { penReal := penReal, intReal := intReal, shotsTot := shotsTot, fp := fps,
    summary :=
    { realWarheads := realWarheadsConst,
      meanPenReal := mean penQ,
      p10PenReal := percentile penQ 10,
      medianPenReal := percentile penQ 50,
      p90PenReal := percentile penQ 90,
      meanIntReal := mean (intReal.map (fun n : Nat => (n : ℚ))),
      meanDetObjects := mean (detObj.map (fun n : Nat => (n : ℚ))),
      meanDetReal := mean (detReal.map (fun n : Nat => (n : ℚ))),
      meanTP := mean (tp.map (fun n : Nat => (n : ℚ))),
      meanFN := mean (fn.map (fun n : Nat => (n : ℚ))),
      meanFP := mean (fps.map (fun n : Nat => (n : ℚ))),
      meanShotsTotal := mean (shotsTot.map (fun n : Nat => (n : ℚ))),
      meanShotsWarheads := mean (shotsW.map (fun n : Nat => (n : ℚ))),
      meanShotsDecoys := mean (shotsD.map (fun n : Nat => (n : ℚ))),
      meanInventoryRemaining := mean (invLeft.map (fun z : Int => (z : ℚ))),
      meanSystemUp := mean systemUpFlags,
      meanPenRateReal :=
        match realWarheadsConst with
        | some c => if 0 < c then (mean penQ).getD 0 / (c : ℚ) else 0
        | none => 0 } }

/-- A configuration used to instantiate universally quantified theorems at
concrete inputs (the UI's default values, scaled down). -/
def demoParams : Params :=
  { nMissiles := 2, mirvsPerMissile := 3, decoysPerWarhead := 1,
    pDetectTrack := (8 : ℚ)/10, pClassifyWarhead := (8 : ℚ)/10,
    pFalseAlarmDecoy := (2 : ℚ)/10, doctrineMode := "barrage",
    shotsPerTarget := 2, maxShotsPerTarget := 4, pReengage := (85 : ℚ)/100,
    pkWarhead := (6 : ℚ)/10, pkDecoy := (8 : ℚ)/10, nInventory := 20,
    nTrials := 3, pSystemUp := (9 : ℚ)/10, detectDegradeFactor := (5 : ℚ)/10,
    pkDegradeFactor := (7 : ℚ)/10 }

/-- The all-zero entropy stream, used to instantiate theorems at a concrete
input. -/
def zeroStream : RStream := fun _ => 0

/-- Variant of `demoParams` with the shoot-look-shoot doctrine selected. -/
def pSls : Params := { demoParams with doctrineMode := "sls" }

/-- Variant of `demoParams` with an unrecognized doctrine-mode string. -/
def pUnk : Params := { demoParams with doctrineMode := "SLS" }

/-- A sample warhead object. -/
def tW : Target := ⟨Kind.warhead, "W0"⟩

/-- A sample decoy object. -/
def tD : Target := ⟨Kind.decoy, "D0"⟩

/-- The §8 scenario with exhausted inventory: 1 missile, 1 MIRV, no decoys,
certain detection and classification, barrage with one shot per target,
certain kill, reliability certain — but zero interceptors. -/
def scenario8b : Params :=
  { nMissiles := 1, mirvsPerMissile := 1, decoysPerWarhead := 0,
    pDetectTrack := 1, pClassifyWarhead := 1, pFalseAlarmDecoy := 0,
    doctrineMode := "barrage", shotsPerTarget := 1, maxShotsPerTarget := 4,
    pReengage := (85 : ℚ)/100, pkWarhead := 1, pkDecoy := 1, nInventory := 0,
    nTrials := 1, pSystemUp := 1, detectDegradeFactor := (5 : ℚ)/10,
    pkDegradeFactor := (7 : ℚ)/10 }

/-- The object sequence a trial starting at stream index `k` iterates over. -/
def trialTargets (p : Params) (r : RStream) (k : Nat) : List Target :=
  (generateTargets p r k).1.targets

/-- The degradation draw of the trial starting at stream index `k`. -/
def trialDeg (p : Params) (r : RStream) (k : Nat) : TrialDegradation × Nat :=
  applyTrialDegradation p r (generateTargets p r k).2

/-- Observer of `runOneTrial`'s loop: the counter state after the first `n`
objects of the trial starting at stream index `k` have been processed. -/
def trialStateAfter (p : Params) (r : RStream) (k : Nat) (n : Nat) :
    TrialState :=
  ((trialTargets p r k).take n).foldl
    (processTarget (trialDeg p r k).1.pDetectTrack_trial
      (trialDeg p r k).1.pkWarhead_trial (trialDeg p r k).1.pkDecoy_trial p r)
    (initState p (trialDeg p r k).2)

/-! ## Engagement lemmas -/

/-- The barrage resolve loop kills exactly when one of the `n` draws starting
at index `k` succeeds. -/
theorem barrageResolve_killed (pk : ℚ) (r : RStream) :
    ∀ n k, (barrageResolve pk r n k).1 = true ↔ ∃ s, s < n ∧ r (k + s) < pk := by
  intro n
  induction n with
  | zero => intro k; simp [barrageResolve]
  | succ n ih =>
    intro k
    simp only [barrageResolve, bernoulli, decide_eq_true_eq]
    by_cases h : r k < pk
    · simp only [if_pos h]
      constructor
      · intro _; exact ⟨0, Nat.succ_pos n, by simpa using h⟩
      · intro _; trivial
    · simp only [if_neg h, ih]
      constructor
      · rintro ⟨s, hs, hlt⟩
        exact ⟨s + 1, by omega, by rwa [show k + (s + 1) = k + 1 + s by omega]⟩
      · rintro ⟨s, hs, hlt⟩
        match s with
        | 0 => exact absurd (by simpa using hlt) h
        | s + 1 =>
          exact ⟨s, by omega, by rwa [show k + 1 + s = k + (s + 1) by omega]⟩

/-- Behaviour of the shoot-look-shoot loop: at most `n` shots are fired; a
kill happens exactly on the last shot fired (the draw for shot number `s`
sits at stream index `k + 2(s−1)`); every earlier shot missed. -/
theorem slsResolve_spec (pk pre : ℚ) (r : RStream) :
    ∀ n k,
      (slsResolve pk pre r n k).2.1 ≤ n ∧
      ((slsResolve pk pre r n k).1 = true →
        1 ≤ (slsResolve pk pre r n k).2.1 ∧
        r (k + 2 * ((slsResolve pk pre r n k).2.1 - 1)) < pk) ∧
      (∀ j, j + 1 < (slsResolve pk pre r n k).2.1 → ¬ r (k + 2 * j) < pk) := by
  intro n
  induction n with
  | zero =>
    intro k
    refine ⟨Nat.le_refl 0, ?_, ?_⟩ <;> simp [slsResolve]
  | succ n ih =>
    intro k
    simp only [slsResolve, bernoulli, decide_eq_true_eq]
    by_cases hhit : r k < pk
    · simp only [if_pos hhit]
      exact ⟨by omega, fun _ => ⟨Nat.le_refl 1, by simpa using hhit⟩,
        fun j hj => absurd hj (by omega)⟩
    · simp only [if_neg hhit]
      by_cases hre : r (k + 1) < pre
      · simp only [if_pos hre]
        obtain ⟨ihle, ihkill, ihmiss⟩ := ih (k + 1 + 1)
        refine ⟨by omega, ?_, ?_⟩
        · intro hk
          obtain ⟨h1, hlt⟩ := ihkill hk
          refine ⟨by omega, ?_⟩
          rwa [show k + 2 * ((slsResolve pk pre r n (k + 1 + 1)).2.1 + 1 - 1)
            = k + 1 + 1 + 2 * ((slsResolve pk pre r n (k + 1 + 1)).2.1 - 1)
            by omega]
        · intro j hj
          match j with
          | 0 => simpa using hhit
          | j + 1 =>
            have := ihmiss j (by omega)
            rwa [show k + 2 * (j + 1) = k + 1 + 1 + 2 * j by omega]
      · simp only [if_neg hre]
        exact ⟨by omega, by simp, fun j hj => absurd hj (by omega)⟩

/-- Interceptors consumed equal shots reported, in every branch of
`engageTarget`. -/
theorem engageTarget_consumption (tgt : Target) (p : Params) (inv : Int)
    (r : RStream) (k : Nat) :
    ((engageTarget tgt p inv r k).1.shotsFired : Int)
      = inv - (engageTarget tgt p inv r k).1.inventoryRemaining := by
  unfold engageTarget
  by_cases h0 : inv ≤ 0
  · simp [h0]
  · simp only [h0, if_false]
    by_cases hb : p.doctrineMode = "barrage"
    · simp only [hb, if_true]
      by_cases ha : min (p.shotsPerTarget : Int) inv ≤ 0
      · simp [ha]
      · simp only [ha, if_false]
        have : (0 : Int) ≤ min (p.shotsPerTarget : Int) inv := by omega
        simp [Int.toNat_of_nonneg this]
    · simp [hb]

/-- The shots reported by `engageTarget` never exceed the inventory it was
given (zero when that inventory is non-positive). -/
theorem engageTarget_shots_le (tgt : Target) (p : Params) (inv : Int)
    (r : RStream) (k : Nat) :
    ((engageTarget tgt p inv r k).1.shotsFired : Int) ≤ max inv 0 := by
  unfold engageTarget
  by_cases h0 : inv ≤ 0
  · simp only [h0, if_true]
    omega
  · simp only [h0, if_false]
    by_cases hb : p.doctrineMode = "barrage"
    · simp only [hb, if_true]
      by_cases ha : min (p.shotsPerTarget : Int) inv ≤ 0
      · simp only [ha, if_true]
        omega
      · simp only [ha, if_false]
        omega
    · simp only [hb, if_false]
      have hle := (slsResolve_spec
        (if tgt.kind = Kind.warhead then p.pkWarhead else p.pkDecoy)
        p.pReengage r (min (p.maxShotsPerTarget : Int) inv).toNat k).1
      omega

/-- Lemma: `engageTarget` never pushes the inventory below zero and never increases
it. -/
theorem engageTarget_inventory_bounds (tgt : Target) (p : Params) (inv : Int)
    (r : RStream) (k : Nat) :
    (engageTarget tgt p inv r k).1.inventoryRemaining ≤ inv ∧
    (0 ≤ inv → 0 ≤ (engageTarget tgt p inv r k).1.inventoryRemaining) := by
  have h1 := engageTarget_consumption tgt p inv r k
  have h2 := engageTarget_shots_le tgt p inv r k
  omega


/-- C2: in barrage mode with positive inventory, the engagement allocates
`min(shotsPerTarget, inventory)` shots, reports exactly that many shots fired
whatever the kill outcome, kills iff one of the up-to-`alloc` Bernoulli draws
(at stream indices `k, k+1, …`) comes in under the true-kind kill
probability, and debits the full allocation from the inventory. -/
theorem claim_C2_barrage_allocation (tgt : Target) (p : Params) (inv : Int)
    (r : RStream) (k : Nat) (hmode : p.doctrineMode = "barrage")
    (hinv : 0 < inv) :
    ((engageTarget tgt p inv r k).1.shotsFired : Int)
      = min (p.shotsPerTarget : Int) inv ∧
    ((engageTarget tgt p inv r k).1.killed = true ↔
      ∃ s, s < (min (p.shotsPerTarget : Int) inv).toNat ∧
        r (k + s) <
          (if tgt.kind = Kind.warhead then p.pkWarhead else p.pkDecoy)) ∧
    (engageTarget tgt p inv r k).1.inventoryRemaining
      = inv - min (p.shotsPerTarget : Int) inv := by
  unfold engageTarget
  simp only [if_neg (by omega : ¬ inv ≤ 0), if_pos hmode]
  by_cases ha : min (p.shotsPerTarget : Int) inv ≤ 0
  · have h0 : min (p.shotsPerTarget : Int) inv = 0 := by omega
    simp only [if_pos ha, h0]
    refine ⟨by simp, ?_, by simp⟩
    simp
  · simp only [if_neg ha]
    have hpos : 0 ≤ min (p.shotsPerTarget : Int) inv := by omega
    exact ⟨by simp [Int.toNat_of_nonneg hpos],
      barrageResolve_killed _ r _ k, by simp⟩

/-- Witness for C2 at a concrete input: barrage doctrine, two shots per
target, five interceptors left. -/
theorem claim_C2_barrage_allocation_witness :
    (demoParams.doctrineMode = "barrage" ∧ (0 : Int) < 5) ∧
    (((engageTarget tW demoParams 5 zeroStream 0).1.shotsFired : Int)
        = min (demoParams.shotsPerTarget : Int) 5 ∧
      ((engageTarget tW demoParams 5 zeroStream 0).1.killed = true ↔
        ∃ s, s < (min (demoParams.shotsPerTarget : Int) 5).toNat ∧
          zeroStream (0 + s) <
            (if tW.kind = Kind.warhead then demoParams.pkWarhead
             else demoParams.pkDecoy)) ∧
      (engageTarget tW demoParams 5 zeroStream 0).1.inventoryRemaining
        = 5 - min (demoParams.shotsPerTarget : Int) 5) :=
  ⟨⟨rfl, by norm_num⟩,
    claim_C2_barrage_allocation tW demoParams 5 zeroStream 0 rfl (by norm_num)⟩

/-- C3: in shoot-look-shoot mode the engagement fires at most
`min(maxShotsPerTarget, inventory)` shots, charges exactly the shots actually
fired against inventory, and on a kill the successful draw is the one of the
last shot fired (shot number `shotsFired`, drawn at stream offset
`2·(shotsFired−1)`), every earlier shot having missed — so no shot follows a
kill. -/
theorem claim_C3_sls_engagement (tgt : Target) (p : Params) (inv : Int)
    (r : RStream) (k : Nat) (hmode : p.doctrineMode = "sls") :
    (engageTarget tgt p inv r k).1.shotsFired
      ≤ (min (p.maxShotsPerTarget : Int) inv).toNat ∧
    (engageTarget tgt p inv r k).1.inventoryRemaining
      = inv - ((engageTarget tgt p inv r k).1.shotsFired : Int) ∧
    ((engageTarget tgt p inv r k).1.killed = true →
      1 ≤ (engageTarget tgt p inv r k).1.shotsFired ∧
      r (k + 2 * ((engageTarget tgt p inv r k).1.shotsFired - 1))
        < (if tgt.kind = Kind.warhead then p.pkWarhead else p.pkDecoy) ∧
      ∀ j, j + 1 < (engageTarget tgt p inv r k).1.shotsFired →
        ¬ r (k + 2 * j)
          < (if tgt.kind = Kind.warhead then p.pkWarhead else p.pkDecoy)) := by
  have hnb : ¬ p.doctrineMode = "barrage" := by rw [hmode]; decide
  unfold engageTarget
  by_cases h0 : inv ≤ 0
  · simp only [if_pos h0]
    exact ⟨Nat.zero_le _, by simp, by simp⟩
  · simp only [if_neg h0, if_neg hnb]
    obtain ⟨hle, hkill, hmiss⟩ := slsResolve_spec
      (if tgt.kind = Kind.warhead then p.pkWarhead else p.pkDecoy)
      p.pReengage r (min (p.maxShotsPerTarget : Int) inv).toNat k
    exact ⟨hle, by trivial, fun hk => ⟨(hkill hk).1, (hkill hk).2, hmiss⟩⟩

/-- Witness for C3 at a concrete input: shoot-look-shoot doctrine with three
interceptors left. -/
theorem claim_C3_sls_engagement_witness :
    pSls.doctrineMode = "sls" ∧
    ((engageTarget tD pSls 3 zeroStream 0).1.shotsFired
        ≤ (min (pSls.maxShotsPerTarget : Int) 3).toNat ∧
      (engageTarget tD pSls 3 zeroStream 0).1.inventoryRemaining
        = 3 - ((engageTarget tD pSls 3 zeroStream 0).1.shotsFired : Int) ∧
      ((engageTarget tD pSls 3 zeroStream 0).1.killed = true →
        1 ≤ (engageTarget tD pSls 3 zeroStream 0).1.shotsFired ∧
        zeroStream (0 + 2 * ((engageTarget tD pSls 3 zeroStream 0).1.shotsFired - 1))
          < (if tD.kind = Kind.warhead then pSls.pkWarhead else pSls.pkDecoy) ∧
        ∀ j, j + 1 < (engageTarget tD pSls 3 zeroStream 0).1.shotsFired →
          ¬ zeroStream (0 + 2 * j)
            < (if tD.kind = Kind.warhead then pSls.pkWarhead
               else pSls.pkDecoy))) :=
  ⟨rfl, claim_C3_sls_engagement tD pSls 3 zeroStream 0 rfl⟩

/-- C10: every doctrine-mode string other than exactly `"barrage"` — the
documented `"sls"` but also any unrecognized value — resolves the engagement
with the shoot-look-shoot logic; there is no error branch for an unknown
mode. -/
theorem claim_C10_non_barrage_is_sls (tgt : Target) (p : Params) (inv : Int)
    (r : RStream) (k : Nat) (hmode : p.doctrineMode ≠ "barrage") :
    engageTarget tgt p inv r k = slsEngage tgt p inv r k := by
  unfold engageTarget slsEngage
  simp only [if_neg hmode]

/-- Witness for C10 at a concrete input: the unrecognized mode string
`"SLS"` (wrong case) falls into the shoot-look-shoot logic. -/
theorem claim_C10_non_barrage_is_sls_witness :
    pUnk.doctrineMode ≠ "barrage" ∧
    engageTarget tW pUnk 7 zeroStream 0 = slsEngage tW pUnk 7 zeroStream 0 :=
  ⟨by decide, claim_C10_non_barrage_is_sls tW pUnk 7 zeroStream 0 (by decide)⟩


/-- C6: an engagement reached with exhausted inventory (or a barrage
allocation of zero) is a no-op — no kill, no shots, inventory unchanged —
and consequently the deterministic §8 zero-inventory scenario ends with its
one real warhead penetrating. -/
theorem claim_C6_exhausted_inventory :
    (∀ (tgt : Target) (p : Params) (inv : Int) (r : RStream) (k : Nat),
      inv ≤ 0 →
      engageTarget tgt p inv r k
        = ({ killed := false, shotsFired := 0, inventoryRemaining := inv }, k)) ∧
    (∀ (tgt : Target) (p : Params) (inv : Int) (r : RStream) (k : Nat),
      0 < inv → p.doctrineMode = "barrage" → p.shotsPerTarget = 0 →
      engageTarget tgt p inv r k
        = ({ killed := false, shotsFired := 0, inventoryRemaining := inv }, k)) ∧
    (runOneTrial scenario8b zeroStream 0).1.penetratedRealWarheads = 1 := by
  refine ⟨?_, ?_, ?_⟩
  · intro tgt p inv r k h
    unfold engageTarget
    simp [if_pos h]
  · intro tgt p inv r k hinv hmode hshots
    have hmin : min (p.shotsPerTarget : Int) inv ≤ 0 := by
      rw [hshots]; omega
    unfold engageTarget
    simp only [if_neg (by omega : ¬ inv ≤ 0), if_pos hmode, if_pos hmin]
  · norm_num [runOneTrial, generateTargets, shuffle, shuffleGo, warheadObjs,
      decoyObjs, applyTrialDegradation, bernoulli, initState, processTarget,
      classifyTarget, engageTarget, scenario8b, zeroStream, List.foldl]

/-- Witness for C6 at a concrete input: negative inventory leaves the
engagement unchanged (first part), and a positive inventory with a
zero-shot barrage allocation does too (second part). -/
theorem claim_C6_exhausted_inventory_witness :
    ((-2 : Int) ≤ 0 ∧
      engageTarget tW demoParams (-2) zeroStream 0
        = ({ killed := false, shotsFired := 0, inventoryRemaining := -2 }, 0)) ∧
    ((0 : Int) < 4 ∧
      { demoParams with shotsPerTarget := 0 }.doctrineMode = "barrage" ∧
      { demoParams with shotsPerTarget := 0 }.shotsPerTarget = 0 ∧
      engageTarget tW { demoParams with shotsPerTarget := 0 } 4 zeroStream 0
        = ({ killed := false, shotsFired := 0, inventoryRemaining := 4 }, 0)) :=
  ⟨⟨by norm_num,
      claim_C6_exhausted_inventory.1 tW demoParams (-2) zeroStream 0
        (by norm_num)⟩,
    ⟨by norm_num, rfl, rfl,
      claim_C6_exhausted_inventory.2.1 tW
        { demoParams with shotsPerTarget := 0 } 4 zeroStream 0
        (by norm_num) rfl rfl⟩⟩

/-- C8: the percentile function interpolates at index `p/100·(n−1)`:
`percentile [1,2,3,4,5] 50 = 3`, `percentile [1,2] 100 = 2`, and both
`percentile` and `mean` return the NaN sentinel (`none`) on empty input. -/
theorem claim_C8_percentile_mean :
    percentile [1, 2, 3, 4, 5] 50 = some 3 ∧
    percentile [1, 2] 100 = some 2 ∧
    (∀ p : ℚ, percentile [] p = none) ∧
    mean [] = none := by
  refine ⟨?_, ?_, fun p => ?_, ?_⟩
  · norm_num [percentile, mean, sortAsc, insertSorted, getAt, qfloor, qceil]
    rfl
  · norm_num [percentile, mean, sortAsc, insertSorted, getAt, qfloor, qceil]
  · norm_num [percentile]
  · norm_num [mean]

/-! ## Salvo generator lemmas -/

/-- Overwriting position `i` exchanges the old element `l[i]` for the new
value `a` in the element counts. -/
theorem count_set (x a : Target) :
    ∀ (l : List Target) (i : Nat) (h : i < l.length),
      (l.set i a).count x + (if l[i] = x then 1 else 0)
        = l.count x + (if a = x then 1 else 0)
  | [], i, h => absurd h (by simp)
  | b :: t, 0, _ => by
    simp only [List.set_cons_zero, List.count_cons, List.getElem_cons_zero,
      beq_iff_eq]
    omega
  | b :: t, i + 1, h => by
    have ih := count_set x a t i (by simpa using h)
    simp only [List.set_cons_succ, List.count_cons, List.getElem_cons_succ,
      beq_iff_eq]
    omega

/-- Swapping two positions of a list permutes it. -/
theorem listSwap_perm (l : List Target) (i j : Nat) :
    List.Perm (listSwap l i j) l := by
  unfold listSwap
  split
  case isTrue h =>
    apply List.perm_iff_count.mpr
    intro x
    have h1 := count_set x (l.get ⟨j, h.2⟩) l i h.1
    have h2 := count_set x (l.get ⟨i, h.1⟩) (l.set i (l.get ⟨j, h.2⟩)) j
      (by simpa using h.2)
    have hj : (l.set i (l.get ⟨j, h.2⟩)).get ⟨j, by simpa using h.2⟩
        = l.get ⟨j, h.2⟩ := by
      rcases eq_or_ne i j with hij | hij
      · subst hij
        simp
      · simp [List.get_eq_getElem, List.getElem_set_ne hij]
    simp only [List.get_eq_getElem] at h1 h2 hj ⊢
    simp only [hj] at h2
    omega
  case isFalse h => exact List.Perm.refl l

/-- Every pass of the Fisher–Yates loop permutes the list. -/
theorem shuffleGo_perm (r : RStream) (i : Nat) :
    ∀ k l, List.Perm (shuffleGo r i k l).1 l := by
  induction i with
  | zero => intro k l; exact List.Perm.refl l
  | succ i ih =>
    intro k l
    simp only [shuffleGo]
    refine (ih (k + 1) _).trans ?_
    by_cases h : (0 : Int) ≤ qfloor (r k * ((i + 2 : Nat) : ℚ))
    · simp only [if_pos h]
      exact listSwap_perm l (i + 1) (qfloor (r k * ((i + 2 : Nat) : ℚ))).toNat
    · simp only [if_neg h]
      exact List.Perm.refl l

/-- Lemma: `shuffle` returns a permutation of its input. -/
theorem shuffle_perm (l : List Target) (r : RStream) (k : Nat) :
    List.Perm (shuffle l r k).1 l :=
  shuffleGo_perm r (l.length - 1) k l

/-- Every object of `warheadObjs` is warhead-kind. -/
theorem countP_warheadObjs_warhead (n : Nat) :
    (warheadObjs n).countP (fun t => t.kind == Kind.warhead) = n := by
  rw [List.countP_eq_length.mpr]
  · simp [warheadObjs]
  · intro a ha
    simp only [warheadObjs, List.mem_map] at ha
    obtain ⟨w, _, rfl⟩ := ha
    rfl

/-- No object of `warheadObjs` is decoy-kind. -/
theorem countP_warheadObjs_decoy (n : Nat) :
    (warheadObjs n).countP (fun t => t.kind == Kind.decoy) = 0 := by
  rw [List.countP_eq_zero.mpr]
  intro a ha
  simp only [warheadObjs, List.mem_map] at ha
  obtain ⟨w, _, rfl⟩ := ha
  simp

/-- Every object of `decoyObjs` is decoy-kind. -/
theorem countP_decoyObjs_decoy (n : Nat) :
    (decoyObjs n).countP (fun t => t.kind == Kind.decoy) = n := by
  rw [List.countP_eq_length.mpr]
  · simp [decoyObjs]
  · intro a ha
    simp only [decoyObjs, List.mem_map] at ha
    obtain ⟨w, _, rfl⟩ := ha
    rfl

/-- No object of `decoyObjs` is warhead-kind. -/
theorem countP_decoyObjs_warhead (n : Nat) :
    (decoyObjs n).countP (fun t => t.kind == Kind.warhead) = 0 := by
  rw [List.countP_eq_zero.mpr]
  intro a ha
  simp only [decoyObjs, List.mem_map] at ha
  obtain ⟨w, _, rfl⟩ := ha
  simp

/-- C5: the salvo generator deterministically reports
`realWarheads = missiles × MIRVs-per-missile` and
`decoys = realWarheads × decoys-per-warhead` for every entropy stream, and
its object sequence is a permutation of exactly `realWarheads` warhead-kind
objects followed by `decoys` decoy-kind objects — the counts of each kind in
the returned sequence are exactly the reported counts; only the order depends
on the stream. -/
theorem claim_C5_salvo_generator (p : Params) (r : RStream) (k : Nat) :
    (generateTargets p r k).1.realWarheads = p.nMissiles * p.mirvsPerMissile ∧
    (generateTargets p r k).1.decoys
      = p.nMissiles * p.mirvsPerMissile * p.decoysPerWarhead ∧
    (generateTargets p r k).1.targets.Perm
      (warheadObjs (p.nMissiles * p.mirvsPerMissile)
        ++ decoyObjs (p.nMissiles * p.mirvsPerMissile * p.decoysPerWarhead)) ∧
    (generateTargets p r k).1.targets.countP (fun t => t.kind == Kind.warhead)
      = p.nMissiles * p.mirvsPerMissile ∧
    (generateTargets p r k).1.targets.countP (fun t => t.kind == Kind.decoy)
      = p.nMissiles * p.mirvsPerMissile * p.decoysPerWarhead := by
  have hperm : (generateTargets p r k).1.targets.Perm
      (warheadObjs (p.nMissiles * p.mirvsPerMissile)
        ++ decoyObjs (p.nMissiles * p.mirvsPerMissile * p.decoysPerWarhead)) := by
    simp only [generateTargets]
    exact shuffle_perm _ r k
  refine ⟨rfl, rfl, hperm, ?_, ?_⟩
  · rw [hperm.countP_eq, List.countP_append, countP_warheadObjs_warhead,
      countP_decoyObjs_warhead]
    exact Nat.add_zero _
  · rw [hperm.countP_eq, List.countP_append, countP_warheadObjs_decoy,
      countP_decoyObjs_decoy]
    exact Nat.zero_add _

/-! ## Trial orchestrator lemmas -/

/-- Each loop pass of `runOneTrial` settles exactly one object: a warhead adds
one to `penetrated + intercepted`, a decoy adds nothing. -/
theorem processTarget_pen_int (pDet pkW pkD : ℚ) (p : Params) (r : RStream)
    (st : TrialState) (tgt : Target) :
    (processTarget pDet pkW pkD p r st tgt).penetratedRealWarheads
        + (processTarget pDet pkW pkD p r st tgt).interceptedRealWarheads
      = st.penetratedRealWarheads + st.interceptedRealWarheads
        + (if tgt.kind = Kind.warhead then 1 else 0) := by
  unfold processTarget
  by_cases hdet : (bernoulli pDet r st.k).1 = false
  · simp only [if_pos hdet]
    omega
  · simp only [if_neg hdet]
    by_cases hcls : (classifyTarget tgt p r (bernoulli pDet r st.k).2).1 = false
    · simp only [if_pos hcls]
      omega
    · simp only [if_neg hcls]
      by_cases hk : tgt.kind = Kind.warhead
      · by_cases hkill :
            (engageTarget tgt { p with pkWarhead := pkW, pkDecoy := pkD }
              st.inventory r
              ((classifyTarget tgt p r (bernoulli pDet r st.k).2).2)).1.killed
            = true
        · simp [hk, hkill]
          omega
        · simp [hk, hkill]
          omega
      · simp [hk]

/-- Each loop pass of `runOneTrial` only ever decreases the inventory, keeps
it non-negative, and decreases it by exactly the shots it adds to
`shotsTotal`. -/
theorem processTarget_inv_shots (pDet pkW pkD : ℚ) (p : Params) (r : RStream)
    (st : TrialState) (tgt : Target) :
    (processTarget pDet pkW pkD p r st tgt).inventory ≤ st.inventory ∧
    (0 ≤ st.inventory →
      0 ≤ (processTarget pDet pkW pkD p r st tgt).inventory) ∧
    ((processTarget pDet pkW pkD p r st tgt).shotsTotal : Int)
        - (st.shotsTotal : Int)
      = st.inventory - (processTarget pDet pkW pkD p r st tgt).inventory := by
  unfold processTarget
  by_cases hdet : (bernoulli pDet r st.k).1 = false
  · simp only [if_pos hdet]
    exact ⟨le_refl _, fun h => h, by omega⟩
  · simp only [if_neg hdet]
    by_cases hcls : (classifyTarget tgt p r (bernoulli pDet r st.k).2).1 = false
    · simp only [if_pos hcls]
      exact ⟨le_refl _, fun h => h, by omega⟩
    · simp only [if_neg hcls]
      have hbnd := engageTarget_inventory_bounds tgt
        { p with pkWarhead := pkW, pkDecoy := pkD } st.inventory r
        ((classifyTarget tgt p r (bernoulli pDet r st.k).2).2)
      have hcons := engageTarget_consumption tgt
        { p with pkWarhead := pkW, pkDecoy := pkD } st.inventory r
        ((classifyTarget tgt p r (bernoulli pDet r st.k).2).2)
      exact ⟨hbnd.1, hbnd.2, by omega⟩

/-- Conservation over the whole object loop: the fold adds one to
`penetrated + intercepted` per warhead in the list. -/
theorem foldl_pen_int (pDet pkW pkD : ℚ) (p : Params) (r : RStream) :
    ∀ (l : List Target) (st : TrialState),
      (l.foldl (processTarget pDet pkW pkD p r) st).penetratedRealWarheads
          + (l.foldl (processTarget pDet pkW pkD p r) st).interceptedRealWarheads
        = st.penetratedRealWarheads + st.interceptedRealWarheads
          + l.countP (fun t => t.kind == Kind.warhead)
  | [], st => by simp
  | t :: ts, st => by
    have ih := foldl_pen_int pDet pkW pkD p r ts
      (processTarget pDet pkW pkD p r st t)
    have hstep := processTarget_pen_int pDet pkW pkD p r st t
    simp only [List.foldl_cons, List.countP_cons, beq_iff_eq] at ih ⊢
    omega

/-- Inventory bounds and shot accounting over the whole object loop. -/
theorem foldl_inv_shots (pDet pkW pkD : ℚ) (p : Params) (r : RStream) :
    ∀ (l : List Target) (st : TrialState),
      (l.foldl (processTarget pDet pkW pkD p r) st).inventory ≤ st.inventory ∧
      (0 ≤ st.inventory →
        0 ≤ (l.foldl (processTarget pDet pkW pkD p r) st).inventory) ∧
      ((l.foldl (processTarget pDet pkW pkD p r) st).shotsTotal : Int)
          - (st.shotsTotal : Int)
        = st.inventory - (l.foldl (processTarget pDet pkW pkD p r) st).inventory
  | [], st => by simp
  | t :: ts, st => by
    obtain ⟨ih1, ih2, ih3⟩ := foldl_inv_shots pDet pkW pkD p r ts
      (processTarget pDet pkW pkD p r st t)
    obtain ⟨h1, h2, h3⟩ := processTarget_inv_shots pDet pkW pkD p r st t
    simp only [List.foldl_cons]
    exact ⟨ih1.trans h1, fun h => ih2 (h2 h), by omega⟩

/-- The warhead count of the generated (shuffled) object sequence is the
reported `realWarheads`. -/
theorem generateTargets_warheadCount (p : Params) (r : RStream) (k : Nat) :
    (generateTargets p r k).1.targets.countP (fun t => t.kind == Kind.warhead)
      = (generateTargets p r k).1.realWarheads := by
  simp only [generateTargets]
  rw [(shuffle_perm _ r k).countP_eq, List.countP_append,
    countP_warheadObjs_warhead, countP_decoyObjs_warhead]
  exact Nat.add_zero _

/-- C1: in every trial, every real warhead resolves to exactly one of the two
fates — `penetratedRealWarheads + interceptedRealWarheads = realWarheads`. -/
theorem claim_C1_warhead_conservation (p : Params) (r : RStream) (k : Nat) :
    (runOneTrial p r k).1.penetratedRealWarheads
        + (runOneTrial p r k).1.interceptedRealWarheads
      = (runOneTrial p r k).1.realWarheads := by
  simp only [runOneTrial]
  rw [foldl_pen_int]
  simp only [initState]
  rw [generateTargets_warheadCount]
  omega

/-- C9: in every trial, interceptors consumed equal shots fired —
`configured inventory − inventoryRemaining = shotsTotal`. -/
theorem claim_C9_shots_equal_consumption (p : Params) (r : RStream) (k : Nat) :
    (p.nInventory : Int) - (runOneTrial p r k).1.inventoryRemaining
      = ((runOneTrial p r k).1.shotsTotal : Int) := by
  simp only [runOneTrial]
  obtain ⟨-, -, h3⟩ := foldl_inv_shots
    (applyTrialDegradation p r (generateTargets p r k).2).1.pDetectTrack_trial
    (applyTrialDegradation p r (generateTargets p r k).2).1.pkWarhead_trial
    (applyTrialDegradation p r (generateTargets p r k).2).1.pkDecoy_trial
    p r (generateTargets p r k).1.targets
    (initState p (applyTrialDegradation p r (generateTargets p r k).2).2)
  simp only [initState] at h3 ⊢
  omega


/-- One more processed object is one more fold step (or nothing, past the end
of the list). -/
theorem trialStateAfter_succ (p : Params) (r : RStream) (k : Nat) (n : Nat) :
    trialStateAfter p r k (n + 1)
      = ((trialTargets p r k)[n]?.elim (trialStateAfter p r k n)
          (fun t => processTarget (trialDeg p r k).1.pDetectTrack_trial
            (trialDeg p r k).1.pkWarhead_trial (trialDeg p r k).1.pkDecoy_trial
            p r (trialStateAfter p r k n) t)) := by
  unfold trialStateAfter
  rw [List.take_succ, List.foldl_append]
  cases h : (trialTargets p r k)[n]? <;> simp [h]

/-- The running inventory of a trial is never negative. -/
theorem trialStateAfter_nonneg (p : Params) (r : RStream) (k : Nat) :
    ∀ n, 0 ≤ (trialStateAfter p r k n).inventory := by
  intro n
  induction n with
  | zero => exact Int.natCast_nonneg p.nInventory
  | succ n ih =>
    rw [trialStateAfter_succ]
    cases h : (trialTargets p r k)[n]? with
    | none => simpa using ih
    | some t =>
      simp only [Option.elim]
      exact (processTarget_inv_shots _ _ _ p r
        (trialStateAfter p r k n) t).2.1 ih

/-- C4: within a trial the inventory starts at the configured size, never
goes negative after any number of processed objects, is non-increasing from
each object to the next, and the trial's reported `inventoryRemaining` is the
inventory after the whole object sequence (each engagement's result being the
inventory seen by the next object, by the fold structure). -/
theorem claim_C4_inventory_monotone (p : Params) (r : RStream) (k : Nat)
    (n : Nat) :
    (trialStateAfter p r k 0).inventory = (p.nInventory : Int) ∧
    0 ≤ (trialStateAfter p r k n).inventory ∧
    (trialStateAfter p r k (n + 1)).inventory
      ≤ (trialStateAfter p r k n).inventory ∧
    (runOneTrial p r k).1.inventoryRemaining
      = (trialStateAfter p r k (trialTargets p r k).length).inventory := by
  refine ⟨rfl, trialStateAfter_nonneg p r k n, ?_, ?_⟩
  · rw [trialStateAfter_succ]
    cases h : (trialTargets p r k)[n]? with
    | none => simp
    | some t =>
      simp only [Option.elim]
      exact (processTarget_inv_shots _ _ _ p r
        (trialStateAfter p r k n) t).1
  · simp only [runOneTrial, trialStateAfter, trialTargets, trialDeg,
      List.take_length]

/-! ## Monte Carlo lemmas -/

/-- Lemma: `runTrials` produces exactly the requested number of trial results. -/
theorem runTrials_length (p : Params) (r : RStream) :
    ∀ n j, (runTrials p r n j).1.length = n
  | 0, _ => rfl
  | n + 1, j => by simp [runTrials, runTrials_length p r n]

/-- Each trial reports the deterministic real-warhead count
`missiles × MIRVs-per-missile`. -/
theorem runOneTrial_realWarheads (p : Params) (r : RStream) (k : Nat) :
    (runOneTrial p r k).1.realWarheads = p.nMissiles * p.mirvsPerMissile :=
  rfl

/-- Lemma: `mean` on a non-empty list is the sum over the length. -/
theorem mean_eq (l : List ℚ) (h : ¬ l.length = 0) :
    mean l = some (l.sum / (l.length : ℚ)) := by
  simp only [mean, if_neg h, List.sum_eq_foldl]

/-- C7: with at least one trial, the summary's penetration rate is the mean
of the per-trial penetrated counts (their sum over their number) divided by
the constant per-trial real-warhead count, and is defined as `0` when that
count is zero (the zero-population configuration is a valid degenerate
case). -/
theorem claim_C7_penetration_rate (p : Params) (r : RStream) (k : Nat)
    (h : 1 ≤ p.nTrials) :
    (runMonteCarlo p r k).penReal.length = p.nTrials ∧
    (runMonteCarlo p r k).summary.realWarheads
      = some (p.nMissiles * p.mirvsPerMissile) ∧
    (p.nMissiles * p.mirvsPerMissile = 0 →
      (runMonteCarlo p r k).summary.meanPenRateReal = 0) ∧
    (0 < p.nMissiles * p.mirvsPerMissile →
      (runMonteCarlo p r k).summary.meanPenRateReal
        = ((runMonteCarlo p r k).penReal.sum : ℚ)
            / ((runMonteCarlo p r k).penReal.length : ℚ)
            / ((p.nMissiles * p.mirvsPerMissile : Nat) : ℚ)) := by
  obtain ⟨m, hm⟩ : ∃ m, p.nTrials = m + 1 := ⟨p.nTrials - 1, by omega⟩
  have hlen : ((runTrials p r p.nTrials k).1.map
      (·.penetratedRealWarheads)).length = p.nTrials := by
    rw [List.length_map, runTrials_length]
  have hcons : (runTrials p r p.nTrials k).1
      = (runOneTrial p r k).1 :: (runTrials p r m (runOneTrial p r k).2).1 := by
    rw [hm]
    rfl
  have hmean : mean (((runTrials p r p.nTrials k).1.map
        (·.penetratedRealWarheads)).map (fun n : Nat => (n : ℚ)))
      = some (((((runTrials p r p.nTrials k).1.map
            (·.penetratedRealWarheads)).sum : Nat) : ℚ)
          / (((runTrials p r p.nTrials k).1.map
            (·.penetratedRealWarheads)).length : ℚ)) := by
    rw [mean_eq _ (by rw [List.length_map, hlen]; omega), List.length_map]
    rw [← Nat.cast_list_sum]
  refine ⟨hlen, ?_, ?_, ?_⟩
  · simp only [runMonteCarlo, hcons, List.head?_cons, Option.map_some',
      runOneTrial_realWarheads]
  · intro h0
    simp only [runMonteCarlo, hcons, List.head?_cons, Option.map_some',
      runOneTrial_realWarheads, h0]
    simp
  · intro h0
    simp only [runMonteCarlo, hcons, List.head?_cons, Option.map_some',
      runOneTrial_realWarheads, if_pos h0]
    rw [← hcons, hmean, Option.getD_some]

/-- Witness for C7 at a concrete input: the demo configuration with three
trials. -/
theorem claim_C7_penetration_rate_witness :
    1 ≤ demoParams.nTrials ∧
    ((runMonteCarlo demoParams zeroStream 0).penReal.length
        = demoParams.nTrials ∧
      (runMonteCarlo demoParams zeroStream 0).summary.realWarheads
        = some (demoParams.nMissiles * demoParams.mirvsPerMissile) ∧
      (demoParams.nMissiles * demoParams.mirvsPerMissile = 0 →
        (runMonteCarlo demoParams zeroStream 0).summary.meanPenRateReal = 0) ∧
      (0 < demoParams.nMissiles * demoParams.mirvsPerMissile →
        (runMonteCarlo demoParams zeroStream 0).summary.meanPenRateReal
          = ((runMonteCarlo demoParams zeroStream 0).penReal.sum : ℚ)
              / ((runMonteCarlo demoParams zeroStream 0).penReal.length : ℚ)
              / ((demoParams.nMissiles * demoParams.mirvsPerMissile : Nat)
                  : ℚ))) :=
  ⟨by decide,
    claim_C7_penetration_rate demoParams zeroStream 0 (by decide)⟩

end Shield
